import Mathlib

/-
Verification of the pattern-growth search engine of hypodisc
(src/hypodisc/core/parallel.py).

The data model (typed variables, assertions, graph patterns) and the
collaborator functions that live outside the provided source tree
(structures.py, sequential.py, utils.py, clustering.py) are modelled from
the specification; every definition whose doc comment starts with
"Modelled from the spec:" is such a model.  Everything else is a direct
shallow embedding of parallel.py: the concurrent candidate-generation
workers are sequentialised (the shared visited list is threaded through
the calls in submission order, which is one legal schedule), and the
stream of calls to Python's random() is modelled as an explicit stream
of rational numbers in [0, 1).
-/

set_option autoImplicit false

namespace Hypodisc

/-- Modelled from the spec: an RDF term, either an entity IRI or a literal
value.  Only the printed value is observable in the claims. -/
inductive RDFTerm where
  | iri (name : String)
  | lit (value : String)
deriving DecidableEq, Inhabited

/-- Modelled from the spec: the `.value` accessor used on terms; for a
literal it is the lexical value, for an IRI its name. -/
def RDFTerm.value : RDFTerm → String
  | .iri s => s
  | .lit v => v

/-- Modelled from the spec: the typed-variable hierarchy of structures.py,
a tagged union over object-type, data-type and the two multimodal kinds.
The cluster summary is abstracted to a numeric identifier. -/
inductive TypedVariable where
  | objectType (className : String)
  | dataType (datatype : String)
  | mmNumeric (datatype : String) (cluster : Nat)
  | mmString (datatype : String) (cluster : Nat)
deriving DecidableEq, Inhabited

/-- Modelled from the spec: `.value` of a variable; for an
`ObjectTypeVariable` this is the class name used to index the Root
Pattern Index. -/
def TypedVariable.value : TypedVariable → String
  | .objectType c => c
  | .dataType d => d
  | .mmNumeric d _ => d
  | .mmString d _ => d

/-- Whether a variable is an `ObjectTypeVariable` (the only extendable
kind). -/
def TypedVariable.isObjectType : TypedVariable → Bool
  | .objectType _ => true
  | _ => false

/-- Whether a variable is a `DataTypeVariable`. -/
def TypedVariable.isDataType : TypedVariable → Bool
  | .dataType _ => true
  | _ => false

/-- Whether a variable is one of the two multimodal kinds. -/
def TypedVariable.isMultiModal : TypedVariable → Bool
  | .mmNumeric _ _ => true
  | .mmString _ _ => true
  | _ => false

/-- Modelled from the spec: the right-hand side of an assertion is either
a typed variable or a bound term. -/
inductive AssertionRHS where
  | var (v : TypedVariable)
  | term (t : RDFTerm)
deriving DecidableEq, Inhabited

/-- Whether an assertion right-hand side is an `ObjectTypeVariable`. -/
def AssertionRHS.isObjectTypeVar : AssertionRHS → Bool
  | .var v => v.isObjectType
  | .term _ => false

/-- Modelled from the spec: a directed edge (lhs variable, predicate,
rhs). -/
structure Assertion where
  lhs : TypedVariable
  predicate : String
  rhs : AssertionRHS
deriving DecidableEq, Inhabited

/-- Modelled from the spec: a rooted tree-shaped graph pattern.  `root` is
the class variable, `assertion` the edge that created the pattern,
`distances` the per-depth ordered sequences of assertions, and `support`
the count of distinct root bindings, fixed at creation. -/
structure GraphPattern where
  root : TypedVariable
  assertion : Assertion
  distances : List (List Assertion)
  support : Nat
deriving DecidableEq, Inhabited

/-- Modelled from the spec: `len(pattern)`, the total assertion count
across all depths. -/
def GraphPattern.length (q : GraphPattern) : Nat :=
  q.distances.foldr (fun l acc => l.length + acc) 0

/-- Modelled from the spec: `pattern.width()`, the maximum number of
sibling assertions sharing a single parent endpoint. -/
def GraphPattern.width (q : GraphPattern) : Nat :=
  let allAssertions := q.distances.foldr (fun l acc => l ++ acc) []
  (allAssertions.map (fun a =>
    (allAssertions.filter (fun b => b.lhs = a.lhs)).length)).foldr max 0

/-- Modelled from the spec: `pattern.contains_at_depth(extension, depth)`,
whether the pattern already holds this exact extension at this depth. -/
def GraphPattern.containsAtDepth (q : GraphPattern) (ext : Assertion)
    (depth : Nat) : Bool :=
  decide (ext ∈ q.distances.getD depth [])

/-- The endpoint computation of `compute_candidates` (parallel.py lines
299 to 307): at depth 0 the singleton root, at a positive depth the
object-type variables on the right-hand side of the assertions introduced
at the previous depth.  The source builds a set; we keep the first
occurrence of each variable. -/
def endpointsOf (q : GraphPattern) (depth : Nat) : List TypedVariable :=
  if depth = 0 then [q.root]
  else ((q.distances.getD (depth - 1) []).filterMap (fun a =>
    match a.rhs with
    | .var v => if v.isObjectType then some v else none
    | .term _ => none)).dedup

/-- The single locked critical section of `compute_candidates` (parallel.py
lines 333 to 339): membership test on the visited list together with the
cycle guard, recording the hash only on acceptance. -/
def checkAndInsert (q : GraphPattern) (depth : Nat) (h : Nat)
    (ext : Assertion) (vis : List Nat) : Bool × List Nat :=
  if decide (h ∈ vis) || q.containsAtDepth ext depth then (false, vis)
  else (true, vis ++ [h])

/-- The mutable state threaded through one `compute_candidates` call: the
random-stream position, the shared visited list, the accepted pairs, and
the pairs that reached the hash computation (pre-dedup). -/
structure CCState where
  k : Nat
  visited : List Nat
  accepted : List (TypedVariable × Assertion)
  considered : List (TypedVariable × Assertion)
deriving DecidableEq, Inhabited

/-- The inner extension loop of `compute_candidates` (parallel.py lines
321 to 344): per-candidate stochastic skip, hash prediction, and the
locked check-and-insert. -/
def ccExtendLoop (ph : GraphPattern → TypedVariable → Assertion → Nat)
    (q : GraphPattern) (depth : Nat) (e : TypedVariable)
    (pExtend : Rat) (rand : Nat → Rat) :
    List GraphPattern → CCState → CCState
  | [], st => st
  | b :: rest, st =>
    if pExtend < rand st.k then
      ccExtendLoop ph q depth e pExtend rand rest
        ⟨st.k + 1, st.visited, st.accepted, st.considered⟩
    else if (checkAndInsert q depth (ph q e b.assertion) b.assertion
        st.visited).1 then
      ccExtendLoop ph q depth e pExtend rand rest
        ⟨st.k + 1,
         (checkAndInsert q depth (ph q e b.assertion) b.assertion
           st.visited).2,
         st.accepted ++ [(e, b.assertion)],
         st.considered ++ [(e, b.assertion)]⟩
    else
      ccExtendLoop ph q depth e pExtend rand rest
        ⟨st.k + 1,
         (checkAndInsert q depth (ph q e b.assertion) b.assertion
           st.visited).2,
         st.accepted, st.considered ++ [(e, b.assertion)]⟩

/-- The outer endpoint loop of `compute_candidates` (parallel.py lines
310 to 318): deterministic skip of endpoints without a Root Pattern Index
entry, then the per-endpoint stochastic skip. -/
def ccEndpointLoop (ph : GraphPattern → TypedVariable → Assertion → Nat)
    (rootPatterns : List (String × List GraphPattern))
    (q : GraphPattern) (depth : Nat)
    (pExplore pExtend : Rat) (rand : Nat → Rat) :
    List TypedVariable → CCState → CCState
  | [], st => st
  | e :: rest, st =>
    match List.lookup e.value rootPatterns with
    | none => ccEndpointLoop ph rootPatterns q depth pExplore pExtend rand rest st
    | some bases =>
      if pExplore < rand st.k then
        ccEndpointLoop ph rootPatterns q depth pExplore pExtend rand rest
          ⟨st.k + 1, st.visited, st.accepted, st.considered⟩
      else
        ccEndpointLoop ph rootPatterns q depth pExplore pExtend rand rest
          (ccExtendLoop ph q depth e pExtend rand bases
            ⟨st.k + 1, st.visited, st.accepted, st.considered⟩)

/-- The result of one `compute_candidates` call. -/
structure CCResult where
  pattern : GraphPattern
  candidates : List (TypedVariable × Assertion)
  visited : List Nat
  considered : List (TypedVariable × Assertion)
deriving DecidableEq, Inhabited

/-- `compute_candidates` (parallel.py lines 279 to 346), sequentialised:
the shared visited list is an explicit argument and result, the hash
function `ph` stands for `predict_hash`, and `rand` is the stream of
values returned by `random()`. -/
def computeCandidates (ph : GraphPattern → TypedVariable → Assertion → Nat)
    (rootPatterns : List (String × List GraphPattern))
    (q : GraphPattern) (depth : Nat)
    (pExplore pExtend : Rat) (rand : Nat → Rat)
    (visited : List Nat) : CCResult :=
  ⟨q,
   (ccEndpointLoop ph rootPatterns q depth pExplore pExtend rand
     (endpointsOf q depth) ⟨0, visited, [], []⟩).accepted,
   (ccEndpointLoop ph rootPatterns q depth pExplore pExtend rand
     (endpointsOf q depth) ⟨0, visited, [], []⟩).visited,
   (ccEndpointLoop ph rootPatterns q depth pExplore pExtend rand
     (endpointsOf q depth) ⟨0, visited, [], []⟩).considered⟩

/-- The candidate pairs a fully deterministic pass (no stochastic skips)
considers: for each endpoint having a Root Pattern Index entry, every
root pattern of its class contributes its assertion. -/
def allCandidatePairs (rootPatterns : List (String × List GraphPattern))
    (q : GraphPattern) (depth : Nat) : List (TypedVariable × Assertion) :=
  (endpointsOf q depth).foldr (fun e acc =>
    (match List.lookup e.value rootPatterns with
     | none => []
     | some bases => bases.map (fun b => (e, b.assertion))) ++ acc) []

/-- The knowledge-graph index consumed by the root builder (external
collaborator, section 6 of the spec): per-relation adjacency as a list of
(subject, object) index pairs, node and datatype lookups.  `ni2ai` maps a
literal node to its datatype-annotation index and is `none` on
entities. -/
structure KnowledgeGraph where
  numRelations : Nat
  A : Nat → List (Nat × Nat)
  i2n : Nat → RDFTerm
  ni2ai : Nat → Option Nat
  i2a : Nat → String
  i2r : Nat → String

/-- The generation mode flag set of `init_root_patterns`. -/
inductive GenMode where
  | A
  | AT
  | T
deriving DecidableEq

/-- Whether the mode string contains the character A. -/
def GenMode.hasAbox : GenMode → Bool
  | .A => true
  | .AT => true
  | .T => false

/-- Whether the mode string contains the character T. -/
def GenMode.hasTbox : GenMode → Bool
  | .A => false
  | .AT => true
  | .T => true

/-- Modelled from the spec: the constant datatype families and the literal
clustering collaborator of clustering.py and datatypes.py, which are not
part of the provided source.  `computeClusters` partitions a literal
population into (member node indices, cluster summary) pairs. -/
structure MMEnv where
  supportedXsdTypes : List String
  xsdString : List String
  xsdNumeric : List String
  xsdDatetime : List String
  xsdDatefrag : List String
  computeClusters : String → List String → List Nat → List (List Nat × Nat)

/-- `XSD_TEMPORAL` (parallel.py line 32): the union of the date-time and
date-fragment families. -/
def MMEnv.xsdTemporal (mm : MMEnv) : List String :=
  mm.xsdDatetime ++ mm.xsdDatefrag

/-- Modelled from the spec: `new_var_graph_pattern` of sequential.py
builds a depth-0 pattern `class --p--> variable` whose support is the
number of distinct subjects in the domain. -/
def new_var_graph_pattern (rootVar varO : TypedVariable) (domain : List Nat)
    (p : String) : GraphPattern :=
  let a : Assertion := ⟨rootVar, p, .var varO⟩
  ⟨rootVar, a, [[a]], domain.dedup.length⟩

/-- Modelled from the spec: `new_graph_pattern` of sequential.py builds a
depth-0 bound pattern `class --p--> value` whose support is the number of
distinct subjects in the domain.  The datatype tag the source passes along
is not part of the pattern structure described by the spec and is
omitted. -/
def new_graph_pattern (rootVar : TypedVariable) (p : String)
    (oValue : RDFTerm) (domain : List Nat) : GraphPattern :=
  let a : Assertion := ⟨rootVar, p, .term oValue⟩
  ⟨rootVar, a, [[a]], domain.dedup.length⟩

/-- Modelled from the spec: `new_mm_graph_pattern` of sequential.py builds
a depth-0 pattern `class --p--> multimodal variable` whose support is the
number of distinct subjects in the domain. -/
def new_mm_graph_pattern (rootVar varO : TypedVariable) (domain : List Nat)
    (p : String) : GraphPattern :=
  let a : Assertion := ⟨rootVar, p, .var varO⟩
  ⟨rootVar, a, [[a]], domain.dedup.length⟩

/-- The masked edge list of `compute_root_patterns` (parallel.py lines
460 to 465): the (subject, object) pairs of relation `pIdx` whose subject
is a member of the class. -/
def classPredicateEdges (kg : KnowledgeGraph) (pIdx : Nat)
    (classMembers : List Nat) : List (Nat × Nat) :=
  (kg.A pIdx).filter (fun e => decide (e.1 ∈ classMembers))

/-- `os_idx_map` of the multimodal section (parallel.py line 558):
`dict(zip(o_idx_list, s_idx_list))`, where a later pair overwrites an
earlier one with the same object index. -/
def osIdxMap (pairs : List (Nat × Nat)) (o : Nat) : Nat :=
  (((pairs.reverse).find? (fun e => decide (e.2 = o))).map Prod.fst).getD 0

/-- The typed-object candidate of `compute_root_patterns` (parallel.py
lines 480 to 498): a data-type variable pattern when T-box mode is on and
the sampled object is a literal, else an object-type variable pattern when
the sampled object has a type edge, else nothing. -/
def tboxCandidate (kg : KnowledgeGraph) (generateTbox : Bool)
    (rdfTypeIdx : Nat) (rootVar : TypedVariable) (p : String)
    (sIdxList : List Nat) (oIdx : Nat) : Option GraphPattern :=
  if generateTbox && (kg.ni2ai oIdx).isSome then
    some (new_var_graph_pattern rootVar
      (.dataType (kg.i2a ((kg.ni2ai oIdx).getD 0))) sIdxList p)
  else
    match ((kg.A rdfTypeIdx).filter (fun e => decide (e.1 = oIdx))).map
        Prod.snd with
    | [] => none
    | t :: _ =>
      some (new_var_graph_pattern rootVar
        (.objectType (kg.i2n t).value) sIdxList p)

/-- The support guard applied to every candidate root pattern
(parallel.py lines 500, 532, 577): kept only when its support reaches the
threshold. -/
def keepIfSupported (minSupport : Nat) : Option GraphPattern →
    List GraphPattern
  | some q => if minSupport ≤ q.support then [q] else []
  | none => []

/-- The typed-object / data-type section of `compute_root_patterns`
(parallel.py lines 480 to 501). -/
def rootTboxPatterns (kg : KnowledgeGraph) (minSupport : Nat)
    (generateTbox : Bool) (rdfTypeIdx : Nat) (rootVar : TypedVariable)
    (p : String) (sIdxList : List Nat) (oIdx : Nat) : List GraphPattern :=
  keepIfSupported minSupport
    (tboxCandidate kg generateTbox rdfTypeIdx rootVar p sIdxList oIdx)

/-- The frequency of one literal value among the objects of the masked
edges: `o_freqs` of parallel.py line 507 at one value. -/
def valueFreq (kg : KnowledgeGraph) (pairs : List (Nat × Nat))
    (v : String) : Nat :=
  ((pairs.map Prod.snd).filter (fun i =>
    decide ((kg.i2n i).value = v))).length

/-- The frequency of one object node among the masked edges: `o_freqs` of
parallel.py line 512 at one node. -/
def nodeFreq (pairs : List (Nat × Nat)) (k : Nat) : Nat :=
  ((pairs.map Prod.snd).filter (fun i => decide (i = k))).length

/-- The bound pattern for one literal value (parallel.py lines 524 to
530): its domain is the set of subjects holding an edge to a node of that
value. -/
def aboxLitPattern (kg : KnowledgeGraph) (rootVar : TypedVariable)
    (p : String) (pairs : List (Nat × Nat)) (v : String) : GraphPattern :=
  new_graph_pattern rootVar p (.lit v)
    ((pairs.filter (fun e => decide ((kg.i2n e.2).value = v))).map Prod.fst)

/-- The bound pattern for one object node (parallel.py lines 524 to
530): its domain is the set of subjects holding an edge to that node. -/
def aboxNodePattern (kg : KnowledgeGraph) (rootVar : TypedVariable)
    (p : String) (pairs : List (Nat × Nat)) (k : Nat) : GraphPattern :=
  new_graph_pattern rootVar p (kg.i2n k)
    ((pairs.filter (fun e => decide (e.2 = k))).map Prod.fst)

/-- The A-box section of `compute_root_patterns` (parallel.py lines 505 to
533).  When a modality flag is set and the objects are literals the edges
are grouped by literal value, otherwise by object node; each group whose
frequency reaches the threshold yields a bound pattern, kept only when its
support also reaches the threshold.  In the by-node branch the source
looks the bound value up under the node's term; on literal objects with
all modality flags off that lookup faults in Python, while this model
returns the pattern keyed by the node's term. -/
def rootAboxPatterns (kg : KnowledgeGraph) (minSupport : Nat)
    (multimodal isLiteral : Bool) (rootVar : TypedVariable) (p : String)
    (pairs : List (Nat × Nat)) : List GraphPattern :=
  if multimodal && isLiteral then
    (((pairs.map Prod.snd).map (fun i => (kg.i2n i).value)).dedup).filterMap
      (fun v =>
        if minSupport ≤ valueFreq kg pairs v then
          if minSupport ≤ (aboxLitPattern kg rootVar p pairs v).support then
            some (aboxLitPattern kg rootVar p pairs v)
          else none
        else none)
  else
    ((pairs.map Prod.snd).dedup).filterMap (fun k =>
      if minSupport ≤ nodeFreq pairs k then
        if minSupport ≤ (aboxNodePattern kg rootVar p pairs k).support then
          some (aboxNodePattern kg rootVar p pairs k)
        else none
      else none)

/-- The multimodal pattern for one cluster (parallel.py lines 562 to
575): a numeric or string variable depending on the datatype family, with
the subjects of the member nodes as domain. -/
def mmClusterPattern (mm : MMEnv) (rootVar : TypedVariable)
    (p oType : String) (pairs : List (Nat × Nat))
    (mc : List Nat × Nat) : GraphPattern :=
  new_mm_graph_pattern rootVar
    (if oType ∈ mm.xsdNumeric ++ mm.xsdDatetime ++ mm.xsdDatefrag
     then .mmNumeric oType mc.2
     else .mmString oType mc.2)
    ((mc.1.map (osIdxMap pairs)).dedup) p

/-- The multimodal section of `compute_root_patterns` (parallel.py lines
535 to 579): datatype-family gating, clustering, and one pattern per
cluster whose support reaches the threshold. -/
def rootMMPatterns (mm : MMEnv) (kg : KnowledgeGraph) (minSupport : Nat)
    (textualSupport numericalSupport temporalSupport : Bool)
    (rootVar : TypedVariable) (p : String)
    (pairs : List (Nat × Nat)) (oIdx : Nat) : List GraphPattern :=
  match kg.ni2ai oIdx with
  | none => []
  | some ai =>
    if kg.i2a ai ∈ mm.supportedXsdTypes then
      if !textualSupport && decide (kg.i2a ai ∈ mm.xsdString) then []
      else if !numericalSupport && decide (kg.i2a ai ∈ mm.xsdNumeric) then []
      else if !temporalSupport && decide (kg.i2a ai ∈ mm.xsdTemporal) then []
      else if minSupport ≤ (pairs.map Prod.snd).length then
        (mm.computeClusters (kg.i2a ai)
          ((pairs.map Prod.snd).map (fun i => (kg.i2n i).value))
          (pairs.map Prod.snd)).filterMap (fun mc =>
            if minSupport ≤
                (mmClusterPattern mm rootVar p (kg.i2a ai) pairs mc).support
            then some (mmClusterPattern mm rootVar p (kg.i2a ai) pairs mc)
            else none)
      else []
    else []

/-- The body of `compute_root_patterns` on the masked edge list. -/
def computeRootPatternsAux (mm : MMEnv) (kg : KnowledgeGraph)
    (minSupport : Nat) (mode : GenMode)
    (textualSupport numericalSupport temporalSupport : Bool)
    (rdfTypeIdx : Nat) (rootVar : TypedVariable) (p : String) :
    List (Nat × Nat) → List GraphPattern
  | [] => []
  | efirst :: rest =>
    rootTboxPatterns kg minSupport mode.hasTbox rdfTypeIdx rootVar p
        ((efirst :: rest).map Prod.fst) efirst.2
      ++ (if mode.hasAbox then
            rootAboxPatterns kg minSupport
              (textualSupport || numericalSupport || temporalSupport)
              (kg.ni2ai
                (((efirst :: rest).map Prod.snd).getLastD efirst.2)).isSome
              rootVar p (efirst :: rest)
          else [])
      ++ (if textualSupport || numericalSupport || temporalSupport then
            rootMMPatterns mm kg minSupport textualSupport numericalSupport
              temporalSupport rootVar p (efirst :: rest) efirst.2
          else [])

/-- `compute_root_patterns` (parallel.py lines 417 to 581): all root
patterns of one class-predicate pair.  The three sections accumulate into
one set, kept here as a concatenated list; an empty masked edge list makes
the unguarded indexing of the source unreachable and yields no
patterns. -/
def computeRootPatterns (mm : MMEnv) (kg : KnowledgeGraph)
    (minSupport : Nat) (mode : GenMode)
    (textualSupport numericalSupport temporalSupport : Bool)
    (pIdx rdfTypeIdx : Nat) (rootVar : TypedVariable)
    (classMembers : List Nat) : List GraphPattern :=
  computeRootPatternsAux mm kg minSupport mode textualSupport
    numericalSupport temporalSupport rdfTypeIdx rootVar (kg.i2r pIdx)
    (classPredicateEdges kg pIdx classMembers)

/-- The number of distinct class members with at least one outgoing edge
of relation `pIdx`: `len(set(kg.A[p_idx].row) & set(class_members_idx))`
in parallel.py line 402. -/
def distinctOutSubjects (kg : KnowledgeGraph) (pIdx : Nat)
    (classMembers : List Nat) : Nat :=
  (((kg.A pIdx).map Prod.fst).filter (fun s =>
    decide (s ∈ classMembers))).dedup.length

/-- The number of outgoing edges of relation `pIdx` whose subject is a
class member.  This is the quantity the specification's words name; it is
compared against the source's subject-counting guard. -/
def outgoingEdgeCount (kg : KnowledgeGraph) (pIdx : Nat)
    (classMembers : List Nat) : Nat :=
  (classPredicateEdges kg pIdx classMembers).length

/-- The predicate-submission filter of `init_root_patterns` (parallel.py
lines 400 to 403): the relation indices for which `compute_root_patterns`
is submitted for one class. -/
def initSubmittedPredicates (kg : KnowledgeGraph) (rdfTypeIdx : Nat)
    (classMembers : List Nat) (minSupport : Nat) : List Nat :=
  (List.range kg.numRelations).filter (fun pIdx =>
    decide (pIdx ≠ rdfTypeIdx) &&
    decide (minSupport ≤ distinctOutSubjects kg pIdx classMembers))

/-- The static configuration of the growth drivers.  `explore` stands for
the external pattern-extension collaborator of sequential.py
(`explore(pattern, candidates, max_length, max_width, min_support)`),
`predictHash` for `predict_hash` of utils.py; both live outside the
provided source and are kept abstract. -/
structure GrowthEnv where
  predictHash : GraphPattern → TypedVariable → Assertion → Nat
  explore : GraphPattern → List (TypedVariable × Assertion) → Nat → Nat →
    Nat → List GraphPattern
  pExplore : Rat
  pExtend : Rat
  rand : Nat → Rat
  maxLength : Nat
  maxWidth : Nat
  minSupport : Nat

/-- The frontier filter shared by both drivers (parallel.py lines 148 to
150 and 244 to 245): a pattern is submitted to the Candidate Generator
exactly when its length is below `max_length` and its width below
`max_width`. -/
def submittedPatterns (patterns : List GraphPattern)
    (maxLength maxWidth : Nat) : List GraphPattern :=
  patterns.filter (fun q =>
    decide (q.length < maxLength) && decide (q.width < maxWidth))

/-- The per-depth candidate-generation pass: `compute_candidates` is run
for every submitted pattern, the shared visited list threaded through in
submission order (one legal schedule of the worker pool). -/
def runCandidatesSeq (env : GrowthEnv)
    (rootPatterns : List (String × List GraphPattern)) (depth : Nat) :
    List GraphPattern → List Nat →
    List (GraphPattern × List (TypedVariable × Assertion)) × List Nat
  | [], vis => ([], vis)
  | q :: rest, vis =>
    let r := computeCandidates env.predictHash rootPatterns q depth
      env.pExplore env.pExtend env.rand vis
    let t := runCandidatesSeq env rootPatterns depth rest r.visited
    ((q, r.candidates) :: t.1, t.2)

/-- The result of one depth pass of a driver. -/
structure DepthResult where
  derivatives : List GraphPattern
  visited : List Nat
deriving Inhabited

/-- The shared per-depth body of both drivers (parallel.py lines 142 to
173 and 236 to 268): filter the frontier, generate candidates, feed every
(pattern, candidates) result to the extension step, and union the grown
patterns. -/
def runDepth (env : GrowthEnv)
    (rootPatterns : List (String × List GraphPattern))
    (patterns : List GraphPattern) (depth : Nat)
    (visited : List Nat) : DepthResult :=
  ⟨((runCandidatesSeq env rootPatterns depth
      (submittedPatterns patterns env.maxLength env.maxWidth)
      visited).1.foldr (fun pc acc =>
      env.explore pc.1 pc.2 env.maxLength env.maxWidth env.minSupport ++ acc)
      []).dedup,
   (runCandidatesSeq env rootPatterns depth
     (submittedPatterns patterns env.maxLength env.maxWidth) visited).2⟩

/-- One executed depth iteration of the depth-first driver: the visited
list as it stands when the depth's candidate generation starts, and the
depth's derivative set. -/
structure DFStep where
  visitedAtStart : List Nat
  derivatives : List GraphPattern
deriving DecidableEq, Inhabited

/-- The per-depth derivative set of one frontier (parallel.py lines 133
to 139 plus the union at line 165): the depth-0 object-variable seed
together with the depth body's grown patterns, as a set. -/
def dfDerivatives (env : GrowthEnv)
    (rootPatterns : List (String × List GraphPattern))
    (patterns : List GraphPattern) (depth : Nat)
    (visited : List Nat) : List GraphPattern :=
  ((if depth = 0 then
      patterns.filter (fun q => q.assertion.rhs.isObjectTypeVar) else [])
    ++ (runDepth env rootPatterns patterns depth visited).derivatives).dedup

/-- The per-class depth loop of `generate_df` (parallel.py lines 126 to
181): at depth 0 the derivative set is seeded with the root patterns whose
right-hand side is an object-type variable, the depth body runs, and the
loop continues with the derivatives as the next frontier or breaks when
they are empty.  The visited list is NOT recreated between depths: the
list produced by one depth is handed to the next.  Returns the trace of
executed depth iterations. -/
def dfClassLoop (env : GrowthEnv)
    (rootPatterns : List (String × List GraphPattern)) :
    List GraphPattern → Nat → List Nat → Nat → List DFStep
  | _, _, _, 0 => []
  | patterns, depth, visited, fuel + 1 =>
    ⟨visited, dfDerivatives env rootPatterns patterns depth visited⟩ ::
      (if (dfDerivatives env rootPatterns patterns depth visited).isEmpty
       then []
       else dfClassLoop env rootPatterns
         (dfDerivatives env rootPatterns patterns depth visited) (depth + 1)
         (runDepth env rootPatterns patterns depth visited).visited fuel)

/-- `generate_df` (parallel.py lines 94 to 183): one fresh visited list
per class, handed through that class's whole depth loop.  The source
iterates classes in sorted name order; class order does not interact with
any shared state here because the visited list is per class, so the map
keeps index order. -/
def generateDF (env : GrowthEnv)
    (rootPatterns : List (String × List GraphPattern))
    (stop : Nat) : List (String × List DFStep) :=
  rootPatterns.map (fun kv =>
    (kv.1, dfClassLoop env rootPatterns kv.2 0 [] stop))

/-- One executed depth iteration of the breadth-first driver: the visited
list the depth's candidate generation starts from, and the per-class
derivative sets. -/
structure BFStep where
  visitedAtStart : List Nat
  derivatives : List (String × List GraphPattern)
deriving Inhabited

/-- The per-depth class sweep of `generate_bf` (parallel.py lines 222 to
270): every retained class runs the depth body, sharing the depth's
visited list, with the depth-0 object-variable seeding. -/
def bfDepthClasses (env : GrowthEnv)
    (rootPatterns : List (String × List GraphPattern)) (depth : Nat) :
    List (String × List GraphPattern) → List Nat →
    List (String × List GraphPattern) × List Nat
  | [], vis => ([], vis)
  | kv :: rest, vis =>
    ((kv.1, dfDerivatives env rootPatterns kv.2 depth vis) ::
       (bfDepthClasses env rootPatterns depth rest
         (runDepth env rootPatterns kv.2 depth vis).visited).1,
     (bfDepthClasses env rootPatterns depth rest
       (runDepth env rootPatterns kv.2 depth vis).visited).2)

/-- The depth loop of `generate_bf` (parallel.py lines 214 to 274): a
fresh empty visited list is created at every depth, the class sweep runs,
and only classes with a non-empty derivative set are retained as parents
for the next depth.  Returns the trace of depth iterations. -/
def bfLoop (env : GrowthEnv)
    (rootPatterns : List (String × List GraphPattern)) :
    List (String × List GraphPattern) → Nat → Nat → List BFStep
  | _, _, 0 => []
  | parents, depth, fuel + 1 =>
    ⟨[], (bfDepthClasses env rootPatterns depth parents []).1⟩ ::
      bfLoop env rootPatterns
        ((bfDepthClasses env rootPatterns depth parents []).1.filter
          (fun kv => !kv.2.isEmpty)) (depth + 1) fuel

/-- `generate_bf` (parallel.py lines 186 to 276): the depth loop started
from the full Root Pattern Index as depth-0 parents. -/
def generateBF (env : GrowthEnv)
    (rootPatterns : List (String × List GraphPattern))
    (stop : Nat) : List BFStep :=
  bfLoop env rootPatterns rootPatterns 0 stop

/-- A concrete class variable used by the concrete scenarios below. -/
def varPerson : TypedVariable := .objectType "Person"

/-- A concrete assertion Person --knows--> Person. -/
def assertKnows : Assertion := ⟨varPerson, "knows", .var varPerson⟩

/-- A concrete assertion Person --likes--> Person. -/
def assertLikes : Assertion := ⟨varPerson, "likes", .var varPerson⟩

/-- A concrete root pattern built on the knows assertion. -/
def patKnows : GraphPattern := ⟨varPerson, assertKnows, [[assertKnows]], 10⟩

/-- A concrete root pattern built on the likes assertion. -/
def patLikes : GraphPattern := ⟨varPerson, assertLikes, [[assertLikes]], 7⟩

/-- A concrete Root Pattern Index with one class and two root patterns. -/
def rootPatterns0 : List (String × List GraphPattern) :=
  [("Person", [patKnows, patLikes])]

/-- A concrete deterministic hash function standing in for
`predict_hash`. -/
def ph0 : GraphPattern → TypedVariable → Assertion → Nat :=
  fun _ _ a => if a.predicate = "knows" then 1 else 2

/-- A concrete random stream that always yields 0. -/
def rand0 : Nat → Rat := fun _ => 0

/-- A concrete random stream that always yields one half. -/
def randHalf : Nat → Rat := fun _ => 1 / 2

/-- A concrete growth configuration: no stochastic skips, an extension
step that grows nothing, and permissive structural bounds. -/
def env0 : GrowthEnv := ⟨ph0, fun _ _ _ _ _ => [], 1, 1, rand0, 5, 5, 1⟩

/-- A concrete multimodal environment whose clustering returns no
clusters. -/
def mm8 : MMEnv := ⟨["xsd:string"], ["xsd:string"], [], [], [], fun _ _ _ => []⟩

/-- A concrete graph for the predicate-submission guard: one class member
(node 0) with two outgoing edges of relation 0; relation 1 is the type
relation. -/
def kgC6 : KnowledgeGraph :=
  ⟨2, fun p => if p = 0 then [(0, 1), (0, 2)] else [],
   fun _ => .iri "x", fun _ => none, fun _ => "", fun _ => "p"⟩

/-- A concrete graph for the A-box grouping: one subject (node 0) with two
edges of relation 0 to two distinct literal nodes that carry the same
value 30. -/
def kg8 : KnowledgeGraph :=
  ⟨2, fun p => if p = 0 then [(0, 1), (0, 2)] else [],
   fun i => if i = 1 ∨ i = 2 then .lit "30" else .iri "s",
   fun i => if i = 1 ∨ i = 2 then some 0 else none,
   fun _ => "xsd:string", fun _ => "age"⟩

/-- A concrete graph with two subjects (nodes 0 and 1), each with one edge
of relation 0 to a literal node of value 30. -/
def kg8b : KnowledgeGraph :=
  ⟨2, fun p => if p = 0 then [(0, 2), (1, 3)] else [],
   fun i => if i = 2 ∨ i = 3 then .lit "30" else .iri "s",
   fun i => if i = 2 ∨ i = 3 then some 0 else none,
   fun _ => "xsd:string", fun _ => "age"⟩

/-- The visited list grows through the critical section: the state before
is contained in the state after. -/
theorem checkAndInsert_subset (q : GraphPattern) (depth h : Nat)
    (ext : Assertion) (vis : List Nat) :
    vis ⊆ (checkAndInsert q depth h ext vis).2 := by
  unfold checkAndInsert
  split
  · simp
  · exact List.subset_append_left _ _

/-- An accepted hash was absent from the visited list and is appended to
it. -/
theorem checkAndInsert_true (q : GraphPattern) (depth h : Nat)
    (ext : Assertion) (vis : List Nat)
    (hc : (checkAndInsert q depth h ext vis).1 = true) :
    h ∉ vis ∧ (checkAndInsert q depth h ext vis).2 = vis ++ [h] := by
  unfold checkAndInsert at hc ⊢
  by_cases h1 : h ∈ vis
  · simp [h1] at hc
  · by_cases h2 : q.containsAtDepth ext depth = true <;> simp [h1, h2] at hc ⊢

/-- A rejected pair leaves the visited list unchanged. -/
theorem checkAndInsert_false (q : GraphPattern) (depth h : Nat)
    (ext : Assertion) (vis : List Nat)
    (hc : (checkAndInsert q depth h ext vis).1 = false) :
    (checkAndInsert q depth h ext vis).2 = vis := by
  unfold checkAndInsert at hc ⊢
  by_cases h1 : h ∈ vis
  · simp [h1]
  · by_cases h2 : q.containsAtDepth ext depth = true <;> simp [h1, h2] at hc ⊢

/-- The containment guard is the membership test on the assertions at the
given depth. -/
theorem containsAtDepth_iff (q : GraphPattern) (ext : Assertion)
    (depth : Nat) :
    q.containsAtDepth ext depth = true ↔
      ext ∈ q.distances.getD depth [] :=
  decide_eq_true_iff

/-- The critical section accepts exactly when the hash is unvisited and
the pattern does not already contain the extension at this depth. -/
theorem checkAndInsert_accept_iff (q : GraphPattern) (depth h : Nat)
    (ext : Assertion) (vis : List Nat) :
    (checkAndInsert q depth h ext vis).1 = true ↔
      h ∉ vis ∧ ext ∉ q.distances.getD depth [] := by
  rw [show (ext ∉ q.distances.getD depth []) =
      ¬(q.containsAtDepth ext depth = true) from by
    rw [containsAtDepth_iff]]
  unfold checkAndInsert
  by_cases h1 : h ∈ vis <;>
    by_cases h2 : q.containsAtDepth ext depth = true <;> simp [h1, h2]

/-- The extension loop only ever appends to the visited list. -/
theorem ccExtendLoop_visited_subset
    (ph : GraphPattern → TypedVariable → Assertion → Nat) (q : GraphPattern)
    (depth : Nat) (e : TypedVariable) (px : Rat) (rand : Nat → Rat) :
    ∀ (l : List GraphPattern) (st : CCState),
      st.visited ⊆ (ccExtendLoop ph q depth e px rand l st).visited := by
  intro l
  induction l with
  | nil => intro st; simp [ccExtendLoop]
  | cons b rest ih =>
    intro st
    rw [ccExtendLoop]
    split
    · exact ih ⟨st.k + 1, st.visited, st.accepted, st.considered⟩
    · split
      · exact (checkAndInsert_subset q depth (ph q e b.assertion)
          b.assertion st.visited).trans (ih
            ⟨st.k + 1,
             (checkAndInsert q depth (ph q e b.assertion) b.assertion
               st.visited).2,
             st.accepted ++ [(e, b.assertion)],
             st.considered ++ [(e, b.assertion)]⟩)
      · exact (checkAndInsert_subset q depth (ph q e b.assertion)
          b.assertion st.visited).trans (ih
            ⟨st.k + 1,
             (checkAndInsert q depth (ph q e b.assertion) b.assertion
               st.visited).2,
             st.accepted, st.considered ++ [(e, b.assertion)]⟩)

/-- The endpoint loop only ever appends to the visited list. -/
theorem ccEndpointLoop_visited_subset
    (ph : GraphPattern → TypedVariable → Assertion → Nat)
    (rp : List (String × List GraphPattern)) (q : GraphPattern)
    (depth : Nat) (pe px : Rat) (rand : Nat → Rat) :
    ∀ (es : List TypedVariable) (st : CCState),
      st.visited ⊆ (ccEndpointLoop ph rp q depth pe px rand es st).visited := by
  intro es
  induction es with
  | nil => intro st; simp [ccEndpointLoop]
  | cons e rest ih =>
    intro st
    rw [ccEndpointLoop]
    cases List.lookup e.value rp with
    | none => exact ih st
    | some bases =>
      simp only
      split
      · exact ih ⟨st.k + 1, st.visited, st.accepted, st.considered⟩
      · exact (ccExtendLoop_visited_subset ph q depth e px rand bases
          ⟨st.k + 1, st.visited, st.accepted, st.considered⟩).trans (ih _)

/-- One `compute_candidates` call only ever appends to the visited
list. -/
theorem computeCandidates_visited_subset
    (ph : GraphPattern → TypedVariable → Assertion → Nat)
    (rp : List (String × List GraphPattern)) (q : GraphPattern)
    (depth : Nat) (pe px : Rat) (rand : Nat → Rat) (visited : List Nat) :
    visited ⊆ (computeCandidates ph rp q depth pe px rand visited).visited :=
  ccEndpointLoop_visited_subset ph rp q depth pe px rand
    (endpointsOf q depth) ⟨0, visited, [], []⟩

/-- Acceptance invariant of the extension loop, relative to a reference
visited list `vis0`: accepted pairs have their hash recorded, and no
accepted pair's hash was in `vis0`. -/
theorem ccExtendLoop_accept_inv
    (ph : GraphPattern → TypedVariable → Assertion → Nat) (q : GraphPattern)
    (depth : Nat) (e : TypedVariable) (px : Rat) (rand : Nat → Rat)
    (vis0 : List Nat) :
    ∀ (l : List GraphPattern) (st : CCState),
      vis0 ⊆ st.visited →
      (∀ pr ∈ st.accepted, ph q pr.1 pr.2 ∈ st.visited) →
      (∀ pr ∈ st.accepted, ph q pr.1 pr.2 ∉ vis0) →
      vis0 ⊆ (ccExtendLoop ph q depth e px rand l st).visited ∧
      (∀ pr ∈ (ccExtendLoop ph q depth e px rand l st).accepted,
        ph q pr.1 pr.2 ∈ (ccExtendLoop ph q depth e px rand l st).visited) ∧
      (∀ pr ∈ (ccExtendLoop ph q depth e px rand l st).accepted,
        ph q pr.1 pr.2 ∉ vis0) := by
  intro l
  induction l with
  | nil => intro st h1 h2 h3; exact ⟨h1, h2, h3⟩
  | cons b rest ih =>
    intro st h1 h2 h3
    rw [ccExtendLoop]
    split
    · exact ih ⟨st.k + 1, st.visited, st.accepted, st.considered⟩ h1 h2 h3
    · split
      · rename_i hacc
        obtain ⟨hfresh, hins⟩ := checkAndInsert_true q depth
          (ph q e b.assertion) b.assertion st.visited hacc
        refine ih ⟨st.k + 1,
          (checkAndInsert q depth (ph q e b.assertion) b.assertion
            st.visited).2,
          st.accepted ++ [(e, b.assertion)],
          st.considered ++ [(e, b.assertion)]⟩ ?_ ?_ ?_
        · rw [hins]
          exact h1.trans (List.subset_append_left _ _)
        · intro pr hpr
          rw [hins]
          rcases List.mem_append.mp hpr with hold | hnew
          · exact List.mem_append.mpr (Or.inl (h2 pr hold))
          · rcases List.mem_singleton.mp hnew with rfl
            exact List.mem_append.mpr (Or.inr (List.mem_singleton.mpr rfl))
        · intro pr hpr
          rcases List.mem_append.mp hpr with hold | hnew
          · exact h3 pr hold
          · rcases List.mem_singleton.mp hnew with rfl
            exact fun hmem => hfresh (h1 hmem)
      · rename_i hrej
        have hkeep := checkAndInsert_false q depth (ph q e b.assertion)
          b.assertion st.visited (Bool.not_eq_true _ ▸ eq_false_of_ne_true hrej)
        refine ih ⟨st.k + 1,
          (checkAndInsert q depth (ph q e b.assertion) b.assertion
            st.visited).2,
          st.accepted, st.considered ++ [(e, b.assertion)]⟩ ?_ ?_ ?_
        · rw [hkeep]; exact h1
        · intro pr hpr; rw [hkeep]; exact h2 pr hpr
        · exact h3

/-- Acceptance invariant of the endpoint loop, relative to a reference
visited list `vis0`. -/
theorem ccEndpointLoop_accept_inv
    (ph : GraphPattern → TypedVariable → Assertion → Nat)
    (rp : List (String × List GraphPattern)) (q : GraphPattern)
    (depth : Nat) (pe px : Rat) (rand : Nat → Rat) (vis0 : List Nat) :
    ∀ (es : List TypedVariable) (st : CCState),
      vis0 ⊆ st.visited →
      (∀ pr ∈ st.accepted, ph q pr.1 pr.2 ∈ st.visited) →
      (∀ pr ∈ st.accepted, ph q pr.1 pr.2 ∉ vis0) →
      vis0 ⊆ (ccEndpointLoop ph rp q depth pe px rand es st).visited ∧
      (∀ pr ∈ (ccEndpointLoop ph rp q depth pe px rand es st).accepted,
        ph q pr.1 pr.2 ∈
          (ccEndpointLoop ph rp q depth pe px rand es st).visited) ∧
      (∀ pr ∈ (ccEndpointLoop ph rp q depth pe px rand es st).accepted,
        ph q pr.1 pr.2 ∉ vis0) := by
  intro es
  induction es with
  | nil => intro st h1 h2 h3; exact ⟨h1, h2, h3⟩
  | cons e rest ih =>
    intro st h1 h2 h3
    rw [ccEndpointLoop]
    cases List.lookup e.value rp with
    | none => exact ih st h1 h2 h3
    | some bases =>
      simp only
      split
      · exact ih ⟨st.k + 1, st.visited, st.accepted, st.considered⟩ h1 h2 h3
      · obtain ⟨g1, g2, g3⟩ := ccExtendLoop_accept_inv ph q depth e px rand
          vis0 bases ⟨st.k + 1, st.visited, st.accepted, st.considered⟩
          h1 h2 h3
        exact ih _ g1 g2 g3

/-- Every pair accepted by one `compute_candidates` call has its hash
recorded in the resulting visited list. -/
theorem computeCandidates_accepted_recorded
    (ph : GraphPattern → TypedVariable → Assertion → Nat)
    (rp : List (String × List GraphPattern)) (q : GraphPattern)
    (depth : Nat) (pe px : Rat) (rand : Nat → Rat) (visited : List Nat) :
    ∀ pr ∈ (computeCandidates ph rp q depth pe px rand visited).candidates,
      ph q pr.1 pr.2 ∈
        (computeCandidates ph rp q depth pe px rand visited).visited :=
  (ccEndpointLoop_accept_inv ph rp q depth pe px rand visited
    (endpointsOf q depth) ⟨0, visited, [], []⟩ (fun _ hx => hx)
    (fun _ hpr => absurd hpr (List.not_mem_nil _))
    (fun _ hpr => absurd hpr (List.not_mem_nil _))).2.1

/-- No pair accepted by one `compute_candidates` call has a hash already
present in the visited list the call started from. -/
theorem computeCandidates_accepted_fresh
    (ph : GraphPattern → TypedVariable → Assertion → Nat)
    (rp : List (String × List GraphPattern)) (q : GraphPattern)
    (depth : Nat) (pe px : Rat) (rand : Nat → Rat) (visited : List Nat) :
    ∀ pr ∈ (computeCandidates ph rp q depth pe px rand visited).candidates,
      ph q pr.1 pr.2 ∉ visited :=
  (ccEndpointLoop_accept_inv ph rp q depth pe px rand visited
    (endpointsOf q depth) ⟨0, visited, [], []⟩ (fun _ hx => hx)
    (fun _ hpr => absurd hpr (List.not_mem_nil _))
    (fun _ hpr => absurd hpr (List.not_mem_nil _))).2.2

/-- With `p_extend = 1` and a random stream inside [0, 1), the extension
loop never skips: every base pattern's assertion reaches the hash
computation, in order. -/
theorem ccExtendLoop_considered_det
    (ph : GraphPattern → TypedVariable → Assertion → Nat) (q : GraphPattern)
    (depth : Nat) (e : TypedVariable) (rand : Nat → Rat)
    (hr : ∀ n, rand n < 1) :
    ∀ (l : List GraphPattern) (st : CCState),
      (ccExtendLoop ph q depth e 1 rand l st).considered =
        st.considered ++ l.map (fun b => (e, b.assertion)) := by
  intro l
  induction l with
  | nil => intro st; simp [ccExtendLoop]
  | cons b rest ih =>
    intro st
    rw [ccExtendLoop, if_neg (not_lt.mpr (le_of_lt (hr st.k)))]
    split
    · rw [ih]; simp
    · rw [ih]; simp

/-- With `p_explore = p_extend = 1` and a random stream inside [0, 1),
the endpoint loop considers exactly the catalogue of pairs reachable from
the endpoints, independently of the stream and of the visited list. -/
theorem ccEndpointLoop_considered_det
    (ph : GraphPattern → TypedVariable → Assertion → Nat)
    (rp : List (String × List GraphPattern)) (q : GraphPattern)
    (depth : Nat) (rand : Nat → Rat) (hr : ∀ n, rand n < 1) :
    ∀ (es : List TypedVariable) (st : CCState),
      (ccEndpointLoop ph rp q depth 1 1 rand es st).considered =
        st.considered ++ es.foldr (fun e acc =>
          (match List.lookup e.value rp with
           | none => []
           | some bases => bases.map (fun b => (e, b.assertion))) ++ acc)
          [] := by
  intro es
  induction es with
  | nil => intro st; simp [ccEndpointLoop]
  | cons e rest ih =>
    intro st
    rw [ccEndpointLoop]
    cases hl : List.lookup e.value rp with
    | none => rw [ih]; simp [hl]
    | some bases =>
      simp only
      rw [if_neg (not_lt.mpr (le_of_lt (hr st.k)))]
      rw [ih, ccExtendLoop_considered_det ph q depth e rand hr]
      simp [hl, List.append_assoc]

/-- C3: `compute_candidates` accepts a pair exactly when, inside the
locked critical section, its predicted hash is unvisited and the pattern
does not already contain the extension at this depth; an accepted pair's
hash is recorded, so a second run on the same pattern starting from the
resulting visited list never re-accepts an already-visited hash. -/
theorem computeCandidates_accept_iff_and_dedup_idempotent
    (ph : GraphPattern → TypedVariable → Assertion → Nat)
    (rp : List (String × List GraphPattern)) (q : GraphPattern)
    (depth : Nat) (pe px : Rat) (rand rand2 : Nat → Rat)
    (visited : List Nat) :
    (∀ (h : Nat) (ext : Assertion) (vis : List Nat),
      (checkAndInsert q depth h ext vis).1 = true ↔
        h ∉ vis ∧ ext ∉ q.distances.getD depth []) ∧
    (∀ pr ∈ (computeCandidates ph rp q depth pe px rand visited).candidates,
      ph q pr.1 pr.2 ∈
        (computeCandidates ph rp q depth pe px rand visited).visited) ∧
    (∀ pr ∈ (computeCandidates ph rp q depth pe px rand2
        (computeCandidates ph rp q depth pe px rand visited).visited).candidates,
      ph q pr.1 pr.2 ∉
        (computeCandidates ph rp q depth pe px rand visited).visited) :=
  ⟨fun h ext vis => checkAndInsert_accept_iff q depth h ext vis,
   computeCandidates_accepted_recorded ph rp q depth pe px rand visited,
   computeCandidates_accepted_fresh ph rp q depth pe px rand2
     (computeCandidates ph rp q depth pe px rand visited).visited⟩

/-- Witness for C3 on the concrete scenario: for the pattern built on the
knows assertion, the pair extending with the likes assertion is accepted
at depth 0 and its hash is recorded in the resulting visited list. -/
theorem computeCandidates_accept_iff_and_dedup_idempotent_witness :
    ph0 patKnows varPerson assertLikes ∈
      (computeCandidates ph0 rootPatterns0 patKnows 0 1 1 rand0 []).visited :=
  (computeCandidates_accept_iff_and_dedup_idempotent ph0 rootPatterns0
    patKnows 0 1 1 rand0 rand0 []).2.1 (varPerson, assertLikes) (by decide)

/-- C4: with `p_explore = p_extend = 1` and random draws in [0, 1), the
pairs considered before hash-based deduplication are exactly the
deterministic catalogue of endpoint-extension pairs, identical across any
two runs with different random streams. -/
theorem computeCandidates_deterministic_at_one
    (ph : GraphPattern → TypedVariable → Assertion → Nat)
    (rp : List (String × List GraphPattern)) (q : GraphPattern)
    (depth : Nat) (rand rand2 : Nat → Rat) (visited : List Nat)
    (hr : ∀ n, rand n < 1) (hr2 : ∀ n, rand2 n < 1) :
    (computeCandidates ph rp q depth 1 1 rand visited).considered =
      allCandidatePairs rp q depth ∧
    (computeCandidates ph rp q depth 1 1 rand visited).considered =
      (computeCandidates ph rp q depth 1 1 rand2 visited).considered := by
  have h1 : (computeCandidates ph rp q depth 1 1 rand visited).considered =
      allCandidatePairs rp q depth := by
    unfold computeCandidates allCandidatePairs
    rw [ccEndpointLoop_considered_det ph rp q depth rand hr]
    simp
  have h2 : (computeCandidates ph rp q depth 1 1 rand2 visited).considered =
      allCandidatePairs rp q depth := by
    unfold computeCandidates allCandidatePairs
    rw [ccEndpointLoop_considered_det ph rp q depth rand2 hr2]
    simp
  exact ⟨h1, h1.trans h2.symm⟩

/-- Witness for C4 on the concrete scenario: the all-zero stream and the
all-one-half stream consider the same pairs, namely the full
catalogue. -/
theorem computeCandidates_deterministic_at_one_witness :
    (computeCandidates ph0 rootPatterns0 patKnows 0 1 1 rand0 []).considered =
      allCandidatePairs rootPatterns0 patKnows 0 ∧
    (computeCandidates ph0 rootPatterns0 patKnows 0 1 1 rand0 []).considered =
      (computeCandidates ph0 rootPatterns0 patKnows 0 1 1 randHalf
        []).considered :=
  computeCandidates_deterministic_at_one ph0 rootPatterns0 patKnows 0
    rand0 randHalf [] (fun n => by norm_num [rand0])
    (fun n => by norm_num [randHalf])

/-- C5: the endpoint set is the root variable alone at depth 0, and at a
positive depth exactly the object-type variables on the right-hand side of
the assertions introduced at the preceding depth; data-type and
multimodal variables never appear as endpoints at a positive depth. -/
theorem endpointsOf_exact (q : GraphPattern) (d : Nat) :
    endpointsOf q 0 = [q.root] ∧
    (∀ v : TypedVariable, v ∈ endpointsOf q (d + 1) ↔
      v.isObjectType = true ∧
        ∃ a ∈ q.distances.getD d [], a.rhs = AssertionRHS.var v) ∧
    (endpointsOf q (d + 1)).all
      (fun v => !v.isDataType && !v.isMultiModal) = true := by
  have hmem : ∀ v : TypedVariable, v ∈ endpointsOf q (d + 1) ↔
      v.isObjectType = true ∧
        ∃ a ∈ q.distances.getD d [], a.rhs = AssertionRHS.var v := by
    intro v
    unfold endpointsOf
    rw [if_neg (Nat.succ_ne_zero d)]
    rw [List.mem_dedup, List.mem_filterMap]
    constructor
    · rintro ⟨a, ha, hfa⟩
      cases hrhs : a.rhs with
      | var w =>
        rw [hrhs] at hfa
        simp only at hfa
        by_cases hw : w.isObjectType = true
        · rw [if_pos hw] at hfa
          rcases Option.some.inj hfa with rfl
          exact ⟨hw, a, ha, hrhs⟩
        · rw [if_neg hw] at hfa
          exact absurd hfa (Option.noConfusion)
      | term t =>
        rw [hrhs] at hfa
        exact absurd hfa (Option.noConfusion)
    · rintro ⟨hobj, a, ha, hrhs⟩
      exact ⟨a, ha, by rw [hrhs]; simp [hobj]⟩
  refine ⟨by simp [endpointsOf], hmem, ?_⟩
  rw [List.all_eq_true]
  intro v hv
  have hobj := ((hmem v).mp hv).1
  cases v <;> simp_all [TypedVariable.isObjectType, TypedVariable.isDataType,
    TypedVariable.isMultiModal]

/-- C7: the frontier filter shared by both drivers submits a pattern to
the Candidate Generator exactly when its length is below `max_length` and
its width below `max_width`. -/
theorem submittedPatterns_iff (patterns : List GraphPattern)
    (maxLength maxWidth : Nat) :
    (∀ q : GraphPattern,
      q ∈ submittedPatterns patterns maxLength maxWidth ↔
        q ∈ patterns ∧ q.length < maxLength ∧ q.width < maxWidth) ∧
    (submittedPatterns patterns maxLength maxWidth).all
      (fun q => decide (q.length < maxLength) &&
        decide (q.width < maxWidth)) = true := by
  constructor
  · intro q
    simp [submittedPatterns, List.mem_filter, and_assoc]
  · rw [List.all_eq_true]
    intro q hq
    simp only [submittedPatterns, List.mem_filter] at hq
    exact hq.2

/-- The sequential candidate pass only ever appends to the shared visited
list. -/
theorem runCandidatesSeq_visited_subset (env : GrowthEnv)
    (rp : List (String × List GraphPattern)) (depth : Nat) :
    ∀ (l : List GraphPattern) (vis : List Nat),
      vis ⊆ (runCandidatesSeq env rp depth l vis).2 := by
  intro l
  induction l with
  | nil => intro vis; simp [runCandidatesSeq]
  | cons q rest ih =>
    intro vis
    rw [runCandidatesSeq]
    exact (computeCandidates_visited_subset env.predictHash rp q depth
      env.pExplore env.pExtend env.rand vis).trans (ih _)

/-- One depth body only ever appends to the shared visited list. -/
theorem runDepth_visited_subset (env : GrowthEnv)
    (rp : List (String × List GraphPattern))
    (patterns : List GraphPattern) (depth : Nat) (vis : List Nat) :
    vis ⊆ (runDepth env rp patterns depth vis).visited :=
  runCandidatesSeq_visited_subset env rp depth
    (submittedPatterns patterns env.maxLength env.maxWidth) vis

/-- The first step of the depth-first class loop records exactly the
visited list the loop was started with. -/
theorem dfClassLoop_head_visited (env : GrowthEnv)
    (rp : List (String × List GraphPattern)) :
    ∀ (fuel : Nat) (pats : List GraphPattern) (depth : Nat)
      (vis : List Nat) (s : DFStep),
      s ∈ (dfClassLoop env rp pats depth vis fuel).head? →
        s.visitedAtStart = vis := by
  intro fuel
  cases fuel with
  | zero => intro pats depth vis s hs; simp [dfClassLoop] at hs
  | succ fuel =>
    intro pats depth vis s hs
    rw [dfClassLoop] at hs
    simp only [List.head?_cons, Option.mem_def, Option.some.injEq] at hs
    rw [hs.symm]

/-- Within one class of the depth-first driver, every hash present when a
depth starts is still present when the next depth starts. -/
theorem dfClassLoop_visited_persists (env : GrowthEnv)
    (rp : List (String × List GraphPattern)) :
    ∀ (fuel : Nat) (pats : List GraphPattern) (depth : Nat)
      (vis : List Nat),
      List.Chain' (fun s s2 => ∀ h ∈ s.visitedAtStart,
        h ∈ s2.visitedAtStart)
        (dfClassLoop env rp pats depth vis fuel) := by
  intro fuel
  induction fuel with
  | zero => intro pats depth vis; simp [dfClassLoop]
  | succ fuel ih =>
    intro pats depth vis
    rw [dfClassLoop, List.chain'_cons']
    constructor
    · intro y hy
      intro h hh
      split at hy
      · simp at hy
      · rw [dfClassLoop_head_visited env rp fuel _ _ _ y hy]
        exact runDepth_visited_subset env rp pats depth vis hh
    · split
      · exact List.chain'_nil
      · exact ih _ _ _

/-- The depth-first class loop performs at most `fuel` depth
iterations. -/
theorem dfClassLoop_length_le (env : GrowthEnv)
    (rp : List (String × List GraphPattern)) :
    ∀ (fuel : Nat) (pats : List GraphPattern) (depth : Nat)
      (vis : List Nat),
      (dfClassLoop env rp pats depth vis fuel).length ≤ fuel := by
  intro fuel
  induction fuel with
  | zero => intro pats depth vis; simp [dfClassLoop]
  | succ fuel ih =>
    intro pats depth vis
    rw [dfClassLoop]
    split
    · simp
    · simpa using Nat.succ_le_succ (ih _ _ _)

/-- Every executed depth of the depth-first class loop other than the
last produced a non-empty derivative set: the loop breaks as soon as the
derivatives come out empty. -/
theorem dfClassLoop_dropLast_nonempty (env : GrowthEnv)
    (rp : List (String × List GraphPattern)) :
    ∀ (fuel : Nat) (pats : List GraphPattern) (depth : Nat)
      (vis : List Nat),
      ((dfClassLoop env rp pats depth vis fuel).dropLast).all
        (fun s => !s.derivatives.isEmpty) = true := by
  intro fuel
  induction fuel with
  | zero => intro pats depth vis; simp [dfClassLoop]
  | succ fuel ih =>
    intro pats depth vis
    rw [dfClassLoop]
    split
    · simp
    · rename_i hne
      cases hrest : dfClassLoop env rp
          (dfDerivatives env rp pats depth vis) (depth + 1)
          (runDepth env rp pats depth vis).visited fuel with
      | nil => simp
      | cons y ys =>
        rw [List.dropLast_cons₂, List.all_cons]
        refine Bool.and_eq_true_iff.mpr ⟨?_, ?_⟩
        · simp only [Bool.not_eq_true']
          exact Bool.not_eq_true _ ▸ eq_false_of_ne_true hne
        · rw [hrest.symm]
          exact ih _ _ _

/-- The class sweep of the breadth-first driver produces one derivative
entry per parent class, in order. -/
theorem bfDepthClasses_fst (env : GrowthEnv)
    (rp : List (String × List GraphPattern)) (depth : Nat) :
    ∀ (parents : List (String × List GraphPattern)) (vis : List Nat),
      ((bfDepthClasses env rp depth parents vis).1).map Prod.fst =
        parents.map Prod.fst := by
  intro parents
  induction parents with
  | nil => intro vis; simp [bfDepthClasses]
  | cons kv rest ih =>
    intro vis
    rw [bfDepthClasses]
    simp [ih]

/-- The first step of the breadth-first loop holds one derivative entry
per parent class. -/
theorem bfLoop_head_keys (env : GrowthEnv)
    (rp : List (String × List GraphPattern)) :
    ∀ (fuel : Nat) (parents : List (String × List GraphPattern))
      (depth : Nat) (s : BFStep),
      s ∈ (bfLoop env rp parents depth fuel).head? →
        s.derivatives.map Prod.fst = parents.map Prod.fst := by
  intro fuel
  cases fuel with
  | zero => intro parents depth s hs; simp [bfLoop] at hs
  | succ fuel =>
    intro parents depth s hs
    rw [bfLoop] at hs
    simp only [List.head?_cons, Option.mem_def, Option.some.injEq] at hs
    rw [hs.symm]
    exact bfDepthClasses_fst env rp depth parents []

/-- Along the breadth-first trace, the classes of each depth are exactly
the classes whose derivative set at the previous depth was non-empty. -/
theorem bfLoop_keys_chain (env : GrowthEnv)
    (rp : List (String × List GraphPattern)) :
    ∀ (fuel : Nat) (parents : List (String × List GraphPattern))
      (depth : Nat),
      List.Chain' (fun s s2 => s2.derivatives.map Prod.fst =
        (s.derivatives.filter (fun kv => !kv.2.isEmpty)).map Prod.fst)
        (bfLoop env rp parents depth fuel) := by
  intro fuel
  induction fuel with
  | zero => intro parents depth; simp [bfLoop]
  | succ fuel ih =>
    intro parents depth
    rw [bfLoop, List.chain'_cons']
    exact ⟨fun y hy => bfLoop_head_keys env rp fuel _ _ y hy, ih _ _⟩

/-- The breadth-first driver creates its shared visited list empty at
every depth. -/
theorem bfLoop_visited_empty (env : GrowthEnv)
    (rp : List (String × List GraphPattern)) :
    ∀ (fuel : Nat) (parents : List (String × List GraphPattern))
      (depth : Nat),
      (bfLoop env rp parents depth fuel).all
        (fun s => s.visitedAtStart.isEmpty) = true := by
  intro fuel
  induction fuel with
  | zero => intro parents depth; simp [bfLoop]
  | succ fuel ih =>
    intro parents depth
    rw [bfLoop]
    simp [ih]

/-- The breadth-first loop performs at most `fuel` depth iterations. -/
theorem bfLoop_length_le (env : GrowthEnv)
    (rp : List (String × List GraphPattern)) :
    ∀ (fuel : Nat) (parents : List (String × List GraphPattern))
      (depth : Nat),
      (bfLoop env rp parents depth fuel).length ≤ fuel := by
  intro fuel
  induction fuel with
  | zero => intro parents depth; simp [bfLoop]
  | succ fuel ih =>
    intro parents depth
    rw [bfLoop]
    simpa using Nat.succ_le_succ (ih _ _)

/-- At depth 0 the breadth-first class sweep seeds every class's
derivative set with that class's object-variable root patterns. -/
theorem bfDepthClasses_seed (env : GrowthEnv)
    (rp : List (String × List GraphPattern)) :
    ∀ (parents : List (String × List GraphPattern)) (vis : List Nat)
      (kv : String × List GraphPattern) (q : GraphPattern),
      kv ∈ parents → q ∈ kv.2 → q.assertion.rhs.isObjectTypeVar = true →
      ∃ d, (kv.1, d) ∈ (bfDepthClasses env rp 0 parents vis).1 ∧ q ∈ d := by
  intro parents
  induction parents with
  | nil => intro vis kv q hkv; simp at hkv
  | cons kv0 rest ih =>
    intro vis kv q hkv hq hov
    rw [bfDepthClasses]
    rcases List.mem_cons.mp hkv with rfl | hmem
    · refine ⟨dfDerivatives env rp kv.2 0 vis, List.mem_cons_self _ _, ?_⟩
      unfold dfDerivatives
      rw [List.mem_dedup]
      refine List.mem_append.mpr (Or.inl ?_)
      rw [if_pos rfl]
      exact List.mem_filter.mpr ⟨hq, hov⟩
    · obtain ⟨d, hd, hqd⟩ := ih
        (runDepth env rp kv0.2 0 vis).visited kv q hmem hq hov
      exact ⟨d, List.mem_cons_of_mem _ hd, hqd⟩

/-- C2 counterexample: the claim fails on the depth-first driver.  With
two Person root patterns and no stochastic skips, the depth-0 pass records
hashes 2 and 1 in the shared visited list, and depth 1's candidate
generation starts with visited list [2, 1] rather than a fresh empty one:
the list is created per class, not per depth. -/
theorem visited_reset_counterexample :
    (dfClassLoop env0 rootPatterns0 [patKnows, patLikes] 0 [] 2).map
      (fun s => s.visitedAtStart) = [[], [2, 1]] := by decide

/-- C2 amended: the breadth-first driver recreates the shared Visited Set
empty at the start of every depth iteration, while the depth-first driver
creates it once per class (empty when the class starts) and hands it from
each depth to the next, so within a class every hash present at one depth
is still present at the next. -/
theorem visited_scope_amended (env : GrowthEnv)
    (rp parents : List (String × List GraphPattern))
    (pats : List GraphPattern) (depth depth2 : Nat) (vis : List Nat)
    (fuel fuel2 stop : Nat) :
    (bfLoop env rp parents depth fuel).all
      (fun s => s.visitedAtStart.isEmpty) = true ∧
    (generateDF env rp stop).all
      (fun kv => ((kv.2).headD default).visitedAtStart.isEmpty) = true ∧
    List.Chain' (fun s s2 => ∀ h ∈ s.visitedAtStart, h ∈ s2.visitedAtStart)
      (dfClassLoop env rp pats depth2 vis fuel2) := by
  refine ⟨bfLoop_visited_empty env rp fuel parents depth, ?_,
    dfClassLoop_visited_persists env rp fuel2 pats depth2 vis⟩
  rw [List.all_eq_true]
  intro kv hkv
  obtain ⟨kv0, hkv0, rfl⟩ := List.mem_map.mp hkv
  cases htr : dfClassLoop env rp kv0.2 0 [] stop with
  | nil => simp [htr]; rfl
  | cons s ss =>
    have hs : s.visitedAtStart = [] :=
      dfClassLoop_head_visited env rp stop kv0.2 0 [] s
        (by rw [htr]; simp)
    simp [htr, hs]

/-- Witness for the amended C2 on the concrete scenario: every depth of
the breadth-first run starts with an empty visited list. -/
theorem visited_scope_amended_witness :
    (bfLoop env0 rootPatterns0 rootPatterns0 0 2).all
      (fun s => s.visitedAtStart.isEmpty) = true :=
  (visited_scope_amended env0 rootPatterns0 rootPatterns0 [patKnows]
    0 0 [] 2 2 2).1

/-- C9: both growth drivers terminate.  Each performs at most
`depths.stop` depth iterations; the depth-first loop breaks for a class as
soon as its derivative set at some depth is empty (only the last executed
depth may have empty derivatives); the breadth-first driver keeps for the
next depth exactly the classes whose derivative set is non-empty; and at
depth 0 the derivative set of every class unconditionally contains all of
its root patterns whose right-hand side is an object-type variable. -/
theorem growth_loop_terminates (env : GrowthEnv)
    (rp : List (String × List GraphPattern)) :
    (∀ (pats : List GraphPattern) (depth : Nat) (vis : List Nat)
       (fuel : Nat),
       (dfClassLoop env rp pats depth vis fuel).length ≤ fuel) ∧
    (∀ (pats : List GraphPattern) (depth : Nat) (vis : List Nat)
       (fuel : Nat),
       ((dfClassLoop env rp pats depth vis fuel).dropLast).all
         (fun s => !s.derivatives.isEmpty) = true) ∧
    (∀ (pats : List GraphPattern) (vis : List Nat) (fuel : Nat)
       (q : GraphPattern), q ∈ pats →
       q.assertion.rhs.isObjectTypeVar = true →
       q ∈ ((dfClassLoop env rp pats 0 vis (fuel + 1)).headD
         default).derivatives) ∧
    (∀ (parents : List (String × List GraphPattern)) (depth fuel : Nat),
       (bfLoop env rp parents depth fuel).length ≤ fuel) ∧
    (∀ (parents : List (String × List GraphPattern)) (depth fuel : Nat),
       List.Chain' (fun s s2 => s2.derivatives.map Prod.fst =
         (s.derivatives.filter (fun kv => !kv.2.isEmpty)).map Prod.fst)
         (bfLoop env rp parents depth fuel)) ∧
    (∀ (parents : List (String × List GraphPattern)) (vis : List Nat)
       (kv : String × List GraphPattern) (q : GraphPattern),
       kv ∈ parents → q ∈ kv.2 → q.assertion.rhs.isObjectTypeVar = true →
       ∃ d, (kv.1, d) ∈ (bfDepthClasses env rp 0 parents vis).1 ∧
         q ∈ d) := by
  refine ⟨fun pats depth vis fuel =>
      dfClassLoop_length_le env rp fuel pats depth vis,
    fun pats depth vis fuel =>
      dfClassLoop_dropLast_nonempty env rp fuel pats depth vis,
    ?_,
    fun parents depth fuel => bfLoop_length_le env rp fuel parents depth,
    fun parents depth fuel => bfLoop_keys_chain env rp fuel parents depth,
    fun parents vis kv q => bfDepthClasses_seed env rp parents vis kv q⟩
  intro pats vis fuel q hq hov
  rw [dfClassLoop]
  simp only [List.headD_cons]
  unfold dfDerivatives
  rw [List.mem_dedup]
  refine List.mem_append.mpr (Or.inl ?_)
  rw [if_pos rfl]
  exact List.mem_filter.mpr ⟨hq, hov⟩

/-- Witness for C9 on the concrete scenario: the knows root pattern has an
object-variable right-hand side and therefore survives into the depth-0
derivative set of the depth-first loop. -/
theorem growth_loop_terminates_witness :
    patKnows ∈ ((dfClassLoop env0 rootPatterns0 [patKnows, patLikes] 0 []
      (1 + 1)).headD default).derivatives :=
  (growth_loop_terminates env0 rootPatterns0).2.2.1 [patKnows, patLikes]
    [] 1 patKnows (by decide) (by decide)

/-- Whatever candidate the guard is fed, a kept pattern meets the support
threshold. -/
theorem keepIfSupported_support (minSupport : Nat) :
    ∀ (o : Option GraphPattern) (q : GraphPattern),
      q ∈ keepIfSupported minSupport o → minSupport ≤ q.support := by
  intro o q hq
  cases o with
  | none => simp [keepIfSupported] at hq
  | some q0 =>
    simp only [keepIfSupported] at hq
    by_cases hs : minSupport ≤ q0.support
    · rw [if_pos hs] at hq
      rcases List.mem_singleton.mp hq with rfl
      exact hs
    · rw [if_neg hs] at hq
      simp at hq

/-- Every pattern of the typed-object section meets the support
threshold. -/
theorem rootTboxPatterns_support (kg : KnowledgeGraph) (minSupport : Nat)
    (gtb : Bool) (rti : Nat) (rootVar : TypedVariable) (p : String)
    (sIdxList : List Nat) (oIdx : Nat) :
    ∀ q ∈ rootTboxPatterns kg minSupport gtb rti rootVar p sIdxList oIdx,
      minSupport ≤ q.support :=
  fun q hq => keepIfSupported_support minSupport _ q hq

/-- Every pattern of the A-box section meets the support threshold. -/
theorem rootAboxPatterns_support (kg : KnowledgeGraph) (minSupport : Nat)
    (multim isLit : Bool) (rootVar : TypedVariable) (p : String)
    (pairs : List (Nat × Nat)) :
    ∀ q ∈ rootAboxPatterns kg minSupport multim isLit rootVar p pairs,
      minSupport ≤ q.support := by
  intro q hq
  unfold rootAboxPatterns at hq
  split at hq
  · obtain ⟨v, _, hf⟩ := List.mem_filterMap.mp hq
    split at hf
    · split at hf
      · rcases Option.some.inj hf with rfl; assumption
      · exact absurd hf Option.noConfusion
    · exact absurd hf Option.noConfusion
  · obtain ⟨k, _, hf⟩ := List.mem_filterMap.mp hq
    split at hf
    · split at hf
      · rcases Option.some.inj hf with rfl; assumption
      · exact absurd hf Option.noConfusion
    · exact absurd hf Option.noConfusion

/-- Every pattern of the multimodal section meets the support
threshold. -/
theorem rootMMPatterns_support (mm : MMEnv) (kg : KnowledgeGraph)
    (minSupport : Nat) (tex num temp : Bool) (rootVar : TypedVariable)
    (p : String) (pairs : List (Nat × Nat)) (oIdx : Nat) :
    ∀ q ∈ rootMMPatterns mm kg minSupport tex num temp rootVar p pairs
      oIdx, minSupport ≤ q.support := by
  intro q hq
  unfold rootMMPatterns at hq
  split at hq
  · simp at hq
  · split at hq
    · split at hq
      · simp at hq
      · split at hq
        · simp at hq
        · split at hq
          · simp at hq
          · split at hq
            · obtain ⟨mc, _, hf⟩ := List.mem_filterMap.mp hq
              split at hf
              · rcases Option.some.inj hf with rfl; assumption
              · exact absurd hf Option.noConfusion
            · simp at hq
    · simp at hq

/-- C1: every graph pattern emitted into the Root Pattern Index by
`compute_root_patterns` has support at least `min_support`, in every
mode and under any modality-flag combination: all three emission sites
are guarded by the support threshold. -/
theorem computeRootPatterns_min_support (mm : MMEnv) (kg : KnowledgeGraph)
    (minSupport : Nat) (mode : GenMode) (tex num temp : Bool)
    (pIdx rdfTypeIdx : Nat) (rootVar : TypedVariable)
    (classMembers : List Nat) :
    ∀ q ∈ computeRootPatterns mm kg minSupport mode tex num temp pIdx
      rdfTypeIdx rootVar classMembers, minSupport ≤ q.support := by
  intro q hq
  unfold computeRootPatterns computeRootPatternsAux at hq
  split at hq
  · simp at hq
  · rename_i efirst rest heq
    rcases List.mem_append.mp hq with h12 | h3
    · rcases List.mem_append.mp h12 with h1 | h2
      · exact rootTboxPatterns_support kg minSupport mode.hasTbox
          rdfTypeIdx rootVar (kg.i2r pIdx) ((efirst :: rest).map Prod.fst)
          efirst.2 q h1
      · split at h2
        · exact rootAboxPatterns_support kg minSupport _ _ rootVar
            (kg.i2r pIdx) (efirst :: rest) q h2
        · simp at h2
    · split at h3
      · exact rootMMPatterns_support mm kg minSupport tex num temp rootVar
          (kg.i2r pIdx) (efirst :: rest) efirst.2 q h3
      · simp at h3

/-- Witness for C1 on the concrete graph kg8b in T-box mode: the one
emitted pattern has support 2, at least the threshold 2. -/
theorem computeRootPatterns_min_support_witness :
    2 ≤ ((computeRootPatterns mm8 kg8b 2 GenMode.T false false false 0 1
      varPerson [0, 1]).headD default).support :=
  computeRootPatterns_min_support mm8 kg8b 2 GenMode.T false false false
    0 1 varPerson [0, 1] _ (by decide)

/-- C6 counterexample: in kgC6, relation 0 has two outgoing edges from
the single class member 0, so its outgoing-edge count 2 meets the
threshold 2 and it differs from the type relation 1, yet
`init_root_patterns` does not submit it: the source counts distinct
subjects (here 1), not edges. -/
theorem initSubmitted_edge_count_counterexample :
    (2 ≤ outgoingEdgeCount kgC6 0 [0] ∧ (0 : Nat) ≠ 1) ∧
    0 ∉ initSubmittedPredicates kgC6 1 [0] 2 := by decide

/-- C6 amended: `init_root_patterns` submits `compute_root_patterns` for
a relation exactly when it is a valid relation index other than the type
relation and the number of DISTINCT class members with at least one
outgoing edge of that relation reaches `min_support`. -/
theorem initSubmitted_iff (kg : KnowledgeGraph) (rdfTypeIdx : Nat)
    (classMembers : List Nat) (minSupport pIdx : Nat) :
    pIdx ∈ initSubmittedPredicates kg rdfTypeIdx classMembers minSupport ↔
      (pIdx < kg.numRelations ∧ pIdx ≠ rdfTypeIdx ∧
        minSupport ≤ distinctOutSubjects kg pIdx classMembers) := by
  simp [initSubmittedPredicates, List.mem_filter, List.mem_range,
    and_assoc]

/-- C10: with `min_support ≥ 1`, a relation submitted by
`init_root_patterns` has a non-empty masked edge list, so the unguarded
first and last indexing of the object index list in
`compute_root_patterns` cannot fail. -/
theorem maskedLists_nonempty (kg : KnowledgeGraph) (rdfTypeIdx pIdx : Nat)
    (classMembers : List Nat) (minSupport : Nat) (hms : 1 ≤ minSupport)
    (hsub : pIdx ∈ initSubmittedPredicates kg rdfTypeIdx classMembers
      minSupport) :
    classPredicateEdges kg pIdx classMembers ≠ [] ∧
    ((classPredicateEdges kg pIdx classMembers).map Prod.snd).head?.isSome
      = true ∧
    ((classPredicateEdges kg pIdx
      classMembers).map Prod.snd).getLast?.isSome = true := by
  have h1 : minSupport ≤ distinctOutSubjects kg pIdx classMembers := by
    simp only [initSubmittedPredicates, List.mem_filter, List.mem_range,
      Bool.and_eq_true, decide_eq_true_eq] at hsub
    exact hsub.2.2
  have hne : classPredicateEdges kg pIdx classMembers ≠ [] := by
    intro he
    have h0 : distinctOutSubjects kg pIdx classMembers = 0 := by
      unfold distinctOutSubjects
      have hmap : ((kg.A pIdx).map Prod.fst).filter
          (fun s => decide (s ∈ classMembers)) = [] := by
        rw [List.filter_map]
        have hpe : (kg.A pIdx).filter
            ((fun s => decide (s ∈ classMembers)) ∘ Prod.fst) =
            classPredicateEdges kg pIdx classMembers := rfl
        rw [hpe, he]
        rfl
      rw [hmap]
      rfl
    omega
  refine ⟨hne, ?_, ?_⟩
  · cases hce : classPredicateEdges kg pIdx classMembers with
    | nil => exact absurd hce hne
    | cons e es => simp [hce]
  · rw [List.getLast?_isSome]
    intro hm
    exact hne (List.map_eq_nil_iff.mp hm)

/-- Witness for C10 on the concrete graph kg8b: relation 0 is submitted
at threshold 2, and its masked subject and object lists are non-empty. -/
theorem maskedLists_nonempty_witness :
    classPredicateEdges kg8b 0 [0, 1] ≠ [] ∧
    ((classPredicateEdges kg8b 0 [0, 1]).map Prod.snd).head?.isSome
      = true ∧
    ((classPredicateEdges kg8b 0 [0, 1]).map Prod.snd).getLast?.isSome
      = true :=
  maskedLists_nonempty kg8b 1 0 [0, 1] 2 (by decide) (by decide)

/-- A pattern kept by the support guard is the guarded candidate
itself. -/
theorem keepIfSupported_mem (minSupport : Nat) (o : Option GraphPattern)
    (q : GraphPattern) (hq : q ∈ keepIfSupported minSupport o) :
    o = some q := by
  cases o with
  | none => simp [keepIfSupported] at hq
  | some q0 =>
    simp only [keepIfSupported] at hq
    by_cases hs : minSupport ≤ q0.support
    · rw [if_pos hs] at hq
      rcases List.mem_singleton.mp hq with rfl
      rfl
    · rw [if_neg hs] at hq
      simp at hq

/-- Every pattern of the typed-object section has a variable right-hand
side. -/
theorem rootTboxPatterns_rhs_var (kg : KnowledgeGraph) (minSupport : Nat)
    (gtb : Bool) (rti : Nat) (rootVar : TypedVariable) (p : String)
    (sIdxList : List Nat) (oIdx : Nat) :
    ∀ q ∈ rootTboxPatterns kg minSupport gtb rti rootVar p sIdxList oIdx,
      ∃ w, q.assertion.rhs = AssertionRHS.var w := by
  intro q hq
  have hc := keepIfSupported_mem minSupport _ q hq
  unfold tboxCandidate at hc
  split at hc
  · rcases Option.some.inj hc with rfl
    exact ⟨_, rfl⟩
  · split at hc
    · exact absurd hc Option.noConfusion
    · rcases Option.some.inj hc with rfl
      exact ⟨_, rfl⟩

/-- Every pattern of the multimodal section has a variable right-hand
side. -/
theorem rootMMPatterns_rhs_var (mm : MMEnv) (kg : KnowledgeGraph)
    (minSupport : Nat) (tex num temp : Bool) (rootVar : TypedVariable)
    (p : String) (pairs : List (Nat × Nat)) (oIdx : Nat) :
    ∀ q ∈ rootMMPatterns mm kg minSupport tex num temp rootVar p pairs
      oIdx, ∃ w, q.assertion.rhs = AssertionRHS.var w := by
  intro q hq
  unfold rootMMPatterns at hq
  split at hq
  · simp at hq
  · split at hq
    · split at hq
      · simp at hq
      · split at hq
        · simp at hq
        · split at hq
          · simp at hq
          · split at hq
            · obtain ⟨mc, _, hf⟩ := List.mem_filterMap.mp hq
              split at hf
              · rcases Option.some.inj hf with rfl
                exact ⟨_, rfl⟩
              · exact absurd hf Option.noConfusion
            · simp at hq
    · simp at hq

/-- The bound literal pattern carries its value on the right-hand
side. -/
theorem aboxLitPattern_rhs (kg : KnowledgeGraph) (rootVar : TypedVariable)
    (p : String) (pairs : List (Nat × Nat)) (v : String) :
    (aboxLitPattern kg rootVar p pairs v).assertion.rhs =
      AssertionRHS.term (RDFTerm.lit v) := rfl

/-- The default value of `getLastD` on a non-empty list is
irrelevant. -/
theorem getLastD_cons_irrel (l : List Nat) (x a b : Nat) :
    (x :: l).getLastD a = (x :: l).getLastD b := by
  rw [List.getLastD_eq_getLast?, List.getLastD_eq_getLast?]
  obtain ⟨y, hy⟩ := Option.isSome_iff_exists.mp
    (List.getLast?_isSome.mpr (List.cons_ne_nil x l))
  rw [hy]
  rfl

/-- C8 counterexample: in kg8, A-box mode with a textual modality flag,
the single subject 0 holds two edges to two distinct literal nodes that
both carry the value 30, so the value's frequency is 2 and meets the
threshold 2, yet `compute_root_patterns` emits NO pattern at all: the
emitted pattern's support is the number of distinct subjects (here 1),
which fails the threshold, not the frequency. -/
theorem abox_frequency_counterexample :
    valueFreq kg8 (classPredicateEdges kg8 0 [0]) "30" = 2 ∧
    computeRootPatterns mm8 kg8 2 GenMode.A true false false 0 1 varPerson
      [0] = [] := by decide

/-- C8 amended: in A-box mode with a modality flag enabled and literal
objects, `compute_root_patterns` groups the predicate's edges by literal
value and emits the bound pattern for a value exactly when both the
value's frequency AND the pattern's support (the number of distinct
subjects holding that value) reach `min_support`; the emitted support is
the distinct-subject count, not the frequency. -/
theorem abox_bound_patterns_iff (mm : MMEnv) (kg : KnowledgeGraph)
    (minSupport : Nat) (mode : GenMode) (tex num temp : Bool)
    (pIdx rdfTypeIdx : Nat) (rootVar : TypedVariable)
    (classMembers : List Nat) (v : String)
    (hms : 1 ≤ minSupport) (habox : mode.hasAbox = true)
    (hmm : (tex || num || temp) = true)
    (hlit : (kg.ni2ai (((classPredicateEdges kg pIdx classMembers).map
      Prod.snd).getLastD 0)).isSome = true) :
    aboxLitPattern kg rootVar (kg.i2r pIdx)
        (classPredicateEdges kg pIdx classMembers) v ∈
      computeRootPatterns mm kg minSupport mode tex num temp pIdx
        rdfTypeIdx rootVar classMembers ↔
      (minSupport ≤
        valueFreq kg (classPredicateEdges kg pIdx classMembers) v ∧
       minSupport ≤ (aboxLitPattern kg rootVar (kg.i2r pIdx)
         (classPredicateEdges kg pIdx classMembers) v).support) := by
  unfold computeRootPatterns
  cases hpairs : classPredicateEdges kg pIdx classMembers with
  | nil =>
    simp only [computeRootPatternsAux, List.not_mem_nil, false_iff]
    rintro ⟨hfreq, _⟩
    have hzero : valueFreq kg [] v = 0 := rfl
    rw [hzero] at hfreq
    omega
  | cons efirst rest =>
    rw [hpairs] at hlit
    have hlast : (kg.ni2ai
        (((efirst :: rest).map Prod.snd).getLastD efirst.2)).isSome
        = true := by
      rw [List.map_cons] at hlit ⊢
      rw [getLastD_cons_irrel (rest.map Prod.snd) efirst.2 efirst.2 0]
      exact hlit
    simp only [computeRootPatternsAux]
    rw [if_pos habox, if_pos hmm]
    constructor
    · intro hmem
      rcases List.mem_append.mp hmem with h12 | h3
      · rcases List.mem_append.mp h12 with h1 | h2
        · obtain ⟨w, hw⟩ := rootTboxPatterns_rhs_var kg minSupport
            mode.hasTbox rdfTypeIdx rootVar (kg.i2r pIdx)
            ((efirst :: rest).map Prod.fst) efirst.2 _ h1
          rw [aboxLitPattern_rhs] at hw
          exact absurd hw (by simp)
        · unfold rootAboxPatterns at h2
          rw [hmm, hlast,
            if_pos (show (true && true) = true from rfl)] at h2
          obtain ⟨v', hv', hf⟩ := List.mem_filterMap.mp h2
          by_cases hfr : minSupport ≤ valueFreq kg (efirst :: rest) v'
          · rw [if_pos hfr] at hf
            by_cases hsp : minSupport ≤ (aboxLitPattern kg rootVar
                (kg.i2r pIdx) (efirst :: rest) v').support
            · rw [if_pos hsp] at hf
              have heqp := Option.some.inj hf
              have hveq : v' = v := by
                have hrhs := congrArg (fun q => q.assertion.rhs) heqp
                simp only [aboxLitPattern_rhs] at hrhs
                injection hrhs with hterm
                injection hterm
              rw [hveq] at hfr hsp
              exact ⟨hfr, hsp⟩
            · rw [if_neg hsp] at hf
              exact absurd hf Option.noConfusion
          · rw [if_neg hfr] at hf
            exact absurd hf Option.noConfusion
      · obtain ⟨w, hw⟩ := rootMMPatterns_rhs_var mm kg minSupport tex num
          temp rootVar (kg.i2r pIdx) (efirst :: rest) efirst.2 _ h3
        rw [aboxLitPattern_rhs] at hw
        exact absurd hw (by simp)
    · rintro ⟨hfreq, hsup⟩
      refine List.mem_append.mpr (Or.inl (List.mem_append.mpr
        (Or.inr ?_)))
      unfold rootAboxPatterns
      rw [hmm, hlast, if_pos (show (true && true) = true from rfl)]
      apply List.mem_filterMap.mpr
      refine ⟨v, ?_, ?_⟩
      · rw [List.mem_dedup]
        have hpos : 0 < valueFreq kg (efirst :: rest) v :=
          lt_of_lt_of_le hms hfreq
        unfold valueFreq at hpos
        obtain ⟨i, hi⟩ := List.exists_mem_of_length_pos hpos
        have hif := List.mem_filter.mp hi
        exact List.mem_map.mpr ⟨i, hif.1, of_decide_eq_true hif.2⟩
      · rw [if_pos hfreq, if_pos hsup]

/-- Witness for the amended C8 on kg8b: two distinct subjects each hold
an edge to a value-30 literal, so frequency 2 and support 2 both meet the
threshold 2 and the bound pattern is emitted. -/
theorem abox_bound_patterns_iff_witness :
    aboxLitPattern kg8b varPerson (kg8b.i2r 0)
        (classPredicateEdges kg8b 0 [0, 1]) "30" ∈
      computeRootPatterns mm8 kg8b 2 GenMode.A true false false 0 1
        varPerson [0, 1] :=
  (abox_bound_patterns_iff mm8 kg8b 2 GenMode.A true false false 0 1
    varPerson [0, 1] "30" (by decide) (by decide) (by decide)
    (by decide)).mpr ⟨by decide, by decide⟩

end Hypodisc
